import Mathlib

/-!
Verification of the gptscript CLI front-end (pkg/cli/gptscript.go):
execution-mode resolution, option assembly, program acquisition with
stdin caching, chat-state materialization, tool listing and output
printing.  The Go code is shallowly embedded: every external
collaborator (loader, server, chat engine, run engine, filesystem,
standard streams) is represented by an `Ext` record of result-returning
functions, and observable actions are recorded in a trace of `Effect`s.
-/

deriving instance DecidableEq for Except

namespace GPTScriptCLI

/-- Bytes of a stream or a file, modelled as a `String`. -/
abbrev Bytes := String

/-- A tool as returned by the `gptScript.ListTools` collaborator.
`meta` stands for all rendered fields other than the name and the
instructions (description, arguments, model, ...). -/
structure Tool where
  name : String
  instructions : String
  meta : String
deriving DecidableEq

/-- `types.Program` as seen by this layer: its name, the blocking flag
set by `SetBlocking`, and the chat-capability bit reported by
`IsChat`. -/
structure Program where
  name : String
  blocking : Bool
  chat : Bool
deriving DecidableEq

/-- The zero value of `types.Program`, returned by `readProgram` when
the argument list is empty. -/
def emptyProgram : Program := { name := "", blocking := false, chat := false }

/-- `prg.SetBlocking()` (types.Program): a copy with the blocking bit set. -/
def Program.SetBlocking (p : Program) : Program := { p with blocking := true }

/-- `prg.IsChat()` (types.Program). -/
def Program.IsChat (p : Program) : Bool := p.chat

/-- `runner.Options` fields assembled by `NewGPTScriptOpts`. -/
structure RunnerOptions where
  credentialOverride : String
  sequential : Bool
  startPort : Int
  endPort : Int
  authorizer : Bool
  monitorFactorySet : Bool
deriving DecidableEq

/-- `gptscript.Options` fields assembled by `NewGPTScriptOpts`. -/
structure Options where
  quiet : Bool
  env : List String
  credentialContext : String
  workspace : String
  runner : RunnerOptions
deriving DecidableEq

/-- The `GPTScript` flag struct (cli), with the `readData` stdin cache.
Field names follow the Go struct. -/
structure GPTScript where
  Confirm : Bool
  Quiet : Bool
  Output : String
  EventsStreamTo : String
  Input : String
  SubTool : String
  Assemble : Bool
  ListModels : Bool
  ListTools : Bool
  Server : Bool
  Daemon : Bool
  Ports : String
  CredentialContext : String
  CredentialOverride : String
  ChatState : String
  ForceChat : Bool
  ForceSequential : Bool
  Workspace : String
  UI : Bool
  DisableTUI : Bool
  Debug : Bool
  DebugMessages : Bool
  SaveChatStateFile : String
  readData : Bytes
deriving DecidableEq

/-- A digit in the sense of `strconv.ParseInt` with base 10. -/
def isDigit (c : Char) : Bool := 48 ≤ c.toNat ∧ c.toNat ≤ 57

/-- Value of a digit string (most significant first). -/
def digitsVal (l : List Char) : Nat :=
  l.foldl (fun a c => a * 10 + (c.toNat - 48)) 0

/-- A non-empty all-digit string parses to its value, anything else fails. -/
def parseNat? (l : List Char) : Option Nat :=
  if l ≠ [] ∧ l.all isDigit then some (digitsVal l) else none

/-- Go `strconv.ParseInt(s, 10, 64)`: optional sign, decimal digits,
64-bit signed range check.  `none` models a non-nil error. -/
def parseInt64 (s : String) : Option Int :=
  match s.toList with
  | [] => none
  | c :: rest =>
    let signed : Bool × List Char :=
      if c = '-' then (true, rest)
      else if c = '+' then (false, rest)
      else (false, c :: rest)
    match parseNat? signed.2 with
    | none => none
    | some n =>
      if signed.1 then
        if n ≤ 2 ^ 63 then some (-(n : Int)) else none
      else
        if n ≤ 2 ^ 63 - 1 then some (n : Int) else none

/-- Whitespace trimmed by Go `strings.TrimSpace` (ASCII part; the port
strings this program trims are ASCII). -/
def isSpaceGo (c : Char) : Bool :=
  c = ' ' ∨ c = '\t' ∨ c = '\n' ∨ c = '\r' ∨ c.toNat = 11 ∨ c.toNat = 12

/-- Go `strings.TrimSpace`. -/
def trimSpace (s : String) : String :=
  ((s.toList.dropWhile isSpaceGo).reverse.dropWhile isSpaceGo).reverse.asString

/-- Go `strings.HasPrefix(s, pre)` (as a list computation, so that the
kernel can evaluate it on concrete strings). -/
def hasPrefixGo (s pre : String) : Bool := pre.toList.isPrefixOf s.toList

/-- Go `strings.HasSuffix(s, suf)`. -/
def hasSuffixGo (s suf : String) : Bool := suf.toList.isSuffixOf s.toList

/-- Go `strings.Cut(s, "-")`, keeping only the before/after pair the
caller uses (the found flag is discarded at the call site; when the
separator is absent the after part is empty, as in Go). -/
def cutDash (s : String) : String × String :=
  match s.toList.findIdx? (fun c => c = '-') with
  | none => (s, "")
  | some i => ((s.toList.take i).asString, (s.toList.drop (i + 1)).asString)

/-- Results and pure behaviour of every external collaborator touched
by the CLI layer: the process environment, the standard-input stream,
the filesystem, the loader, the server, the chat/run engines, and the
small path helpers.  `Except String` models a Go `error` return. -/
structure Ext where
  environ : List String
  stdin : Bytes
  stdinReadErr : Option String
  readFile : String → Except String Bytes
  newFileFactory : String → Except String Unit
  serverNew : Except String Unit
  serverStart : Except String Unit
  gptscriptNew : Except String Unit
  listModelsRes : List String → Except String (List String)
  progFromSource : Bytes → String → Except String Program
  progFromPath : String → String → Except String Program
  listToolsRes : Program → List Tool
  toolRender : Tool → String
  inputFromCLI : String → List String → Except String String
  chatRes : String → Program → List String → String → Except String String
  jsonMarshal : String → Except String String
  tuiRes : Except String Unit
  chatStartRes : Except String Unit
  runRes : Program → List String → String → Except String String
  assembleRes : Program → Except String Unit
  createFile : String → Except String Unit
  writeFile : String → Bytes → Except String Unit
  absPath : String → Except String String
  dirOf : String → String
  baseOf : String → String
  getwd : Except String String
  uiTool : String
  binEnvSet : Bool
  bin : String
  sortSlice : List Tool → List Tool

/-- Observable actions of one invocation, in order. -/
inductive Effect where
  | serverNew
  | serverStart
  | serverClose
  | gptscriptNew
  | gptClose
  | listModelsEff (args : List String)
  | readStdin
  | loadSource (data subTool : String)
  | loadPath (path subTool : String)
  | listToolsEff (prg : Program)
  | helpEff
  | createFileEff (path : String)
  | assembleEff (prg : Program) (out : String)
  | readFileEff (path : String)
  | chatStatelessEff (state : String) (prg : Program) (input : String)
  | tuiRunEff (tool input state saveFile : String)
  | chatStartEff (state input saveFile : String)
  | clearExtraEnv
  | runCollabEff (prg : Program) (input : String)
  | stderrWrite (s : String)
  | stdoutWrite (s : String)
  | fileWrite (path content : String)
  | waitCancel
deriving DecidableEq

/-- Whether the standard-input stream has already been consumed. -/
structure ProcState where
  stdinRead : Bool
deriving DecidableEq

/-- `NewGPTScriptOpts` (gptscript.go:128-174): assemble and validate
`gptscript.Options` from the flag struct.  The event-stream step
(gptscript.go:164-171) follows the port-range step, as in the source. -/
def NewGPTScriptOpts (r : GPTScript) (ext : Ext) : Except String Options :=
  let opts : Options := {
    quiet := r.Quiet
    env := ext.environ
    credentialContext := r.CredentialContext
    workspace := r.Workspace
    runner := {
      credentialOverride := r.CredentialOverride
      sequential := r.ForceSequential
      startPort := 0
      endPort := 0
      authorizer := r.Confirm
      monitorFactorySet := false } }
  let withEvents : Options → Except String Options := fun o =>
    if r.EventsStreamTo ≠ "" then
      match ext.newFileFactory r.EventsStreamTo with
      | .error e => .error e
      | .ok _ => .ok { o with runner := { o.runner with monitorFactorySet := true } }
    else .ok o
  if r.Ports ≠ "" then
    match parseInt64 (trimSpace (cutDash r.Ports).1) with
    | none => .error ("invalid port range: " ++ r.Ports)
    | some startNum =>
      match (if (cutDash r.Ports).2 ≠ "" then parseInt64 (trimSpace (cutDash r.Ports).2) else some 0) with
      | none => .error ("invalid port range: " ++ r.Ports)
      | some endNum =>
        withEvents { opts with runner := { opts.runner with startPort := startNum, endPort := endNum } }
  else withEvents opts

/-- `readProgram` (gptscript.go:273-300).  An empty argument list yields
the zero `Program`; the sentinel "-" reads standard input unless the
`readData` cache is non-empty; anything else goes to the loader.
Returns the trace, the result and the updated flag struct and stream
state. -/
def readProgram (r : GPTScript) (ext : Ext) (args : List String) (st : ProcState) :
    List Effect × Except String Program × GPTScript × ProcState :=
  match args with
  | [] => ([], .ok emptyProgram, r, st)
  | arg0 :: _ =>
    if arg0 = "-" then
      if r.readData.length > 0 then
        ([.loadSource r.readData r.SubTool], ext.progFromSource r.readData r.SubTool, r, st)
      else
        match ext.stdinReadErr with
        | some e => ([.readStdin], .error e, r, st)
        | none =>
          let data := if st.stdinRead then "" else ext.stdin
          ([.readStdin, .loadSource data r.SubTool], ext.progFromSource data r.SubTool,
            { r with readData := data }, { st with stdinRead := true })
    else
      ([.loadPath arg0 r.SubTool], ext.progFromPath arg0 r.SubTool, r, st)

/-- `n` successive program acquisitions in one process, threading the
`readData` cache and the stream state, collecting the trace. -/
def acquireTimes (n : Nat) (r : GPTScript) (ext : Ext) (args : List String) (st : ProcState) :
    List Effect × GPTScript × ProcState :=
  match n with
  | 0 => ([], r, st)
  | n + 1 =>
    let one := readProgram r ext args st
    let rest := acquireTimes n one.2.2.1 ext args one.2.2.2
    (one.1 ++ rest.1, rest.2)

/-- Number of standard-input reads recorded in a trace. -/
def countReads (tr : List Effect) : Nat :=
  (tr.filter (fun e => e = Effect.readStdin)).length

/-- The chat-state materialization step of `Run` (gptscript.go:432-439):
`chatState` starts empty and is only assigned from a file read; the
guard skips the empty token, the literal "null" and tokens starting
with an opening brace. -/
def materializeChatState (token : String) (readFile : String → Except String Bytes) :
    Except String String :=
  if token ≠ "" ∧ token ≠ "null" ∧ hasPrefixGo token "\x7b" = false then
    match readFile token with
    | .error e => .error ("reading " ++ token ++ ": " ++ e)
    | .ok data => .ok data
  else .ok ""

/-- `PrintOutput` (gptscript.go:302-323): write to the named output
file, or echo input (unless quiet) to standard error and the result to
standard output, appending a newline when the result lacks one. -/
def PrintOutput (r : GPTScript) (ext : Ext) (toolInput toolOutput : String) :
    List Effect × Except String Unit :=
  if r.Output ≠ "" ∧ r.Output ≠ "-" then
    match ext.writeFile r.Output toolOutput with
    | .error e => ([.fileWrite r.Output toolOutput], .error e)
    | .ok _ => ([.fileWrite r.Output toolOutput], .ok ())
  else
    let pre : List Effect :=
      if ¬ r.Quiet then
        (if toolInput ≠ "" then
          [.stderrWrite "\nINPUT:\n\n", .stderrWrite (toolInput ++ "\n")]
         else []) ++ [.stderrWrite "\nOUTPUT:\n\n"]
      else []
    (pre ++ [.stdoutWrite toolOutput] ++
      (if hasSuffixGo toolOutput "\n" then [] else [.stdoutWrite "\n"]), .ok ())

/-- Concatenated standard-error text of a trace. -/
def stderrText : List Effect → String
  | [] => ""
  | .stderrWrite s :: tr => s ++ stderrText tr
  | _ :: tr => stderrText tr

/-- Concatenated standard-output text of a trace. -/
def stdoutText : List Effect → String
  | [] => ""
  | .stdoutWrite s :: tr => s ++ stdoutText tr
  | _ :: tr => stdoutText tr

/-- `listTools` (gptscript.go:196-214), with the `sort.Slice` call
abstracted as `sortf` (Go documents `sort.Slice` as sorting by the
less function without a stability guarantee, so it is modelled by that
contract, see `SortSpec`).  Empty names are replaced by the program
name, instructions are blanked, and the rendered entries are joined
and printed. -/
def listTools (sortf : List Tool → List Tool) (ext : Ext) (prg : Program) :
    List Effect × Except String Unit :=
  let tools := sortf (ext.listToolsRes prg)
  let lines := tools.map (fun tool =>
    let tool1 := if tool.name = "" then { tool with name := prg.name } else tool
    let tool2 := { tool1 with instructions := "" }
    ext.toolRender tool2)
  ([.listToolsEff prg, .stdoutWrite (String.intercalate "\n---\n" lines ++ "\n")], .ok ())

/-- The contract of Go `sort.Slice` with the by-name less function of
gptscript.go:198-200: the result is a permutation sorted so that no
later tool's name is below an earlier one's.  Stability is deliberately
not part of the contract (Go: "The sort is not guaranteed to be
stable"). -/
def SortSpec (sortf : List Tool → List Tool) : Prop :=
  ∀ l : List Tool, (sortf l).Perm l ∧ (sortf l).Pairwise (fun a b => ¬ b.name < a.name)

/-- The server branch of `Run` (gptscript.go:369-379): create the
server, start it, and close it when `Start` returns (deferred close). -/
def serverBlock (ext : Ext) : List Effect × Except String Unit :=
  match ext.serverNew with
  | .error e => ([.serverNew], .error e)
  | .ok _ =>
    match ext.serverStart with
    | .error e => ([.serverNew, .serverStart, .serverClose], .error e)
    | .ok _ => ([.serverNew, .serverStart, .serverClose], .ok ())

/-- The UI branch of `Run` (gptscript.go:331-365): prepend the UI tool
reference, reject a stdin program, rewrite the argument list to a
`--file=` reference, extend the environment, and force daemon mode. -/
def uiBlock (r : GPTScript) (ext : Ext) (gptOpt : Options) (args0 : List String) :
    Except String (GPTScript × Options × List String) :=
  if r.UI then
    match args0 with
    | arg1 :: _ =>
      if arg1 = "-" then .error "chat UI only supports files, cannot read from stdin"
      else
        match ext.absPath arg1 with
        | .error e => .error ("cannot determine absolute path to script " ++ arg1 ++ ": " ++ e)
        | .ok absP =>
          let env1 := gptOpt.env ++ ["SCRIPTS_PATH=" ++ ext.dirOf absP]
          let env2 := if ext.binEnvSet then env1 else env1 ++ ["GPTSCRIPT_BIN=" ++ ext.bin]
          let args1 := [ext.uiTool, "--file=" ++ ext.baseOf arg1]
          let args2 := if 2 < args1.length then args1 ++ args1.drop 2 else args1
          .ok ({ r with Daemon := true }, { gptOpt with env := env2 }, args2)
    | [] =>
      match ext.getwd with
      | .error e => .error ("could not determine current working directory: " ++ e)
      | .ok cwd =>
        .ok ({ r with Daemon := true },
          { gptOpt with env := gptOpt.env ++ ["SCRIPTS_PATH=" ++ cwd] }, [ext.uiTool])
  else .ok (r, gptOpt, args0)

/-- `Run` after a successful program load (gptscript.go:405-485):
list-tools, help fallback, assemble, input decoding, chat-state
materialization, stateless chat, interactive chat (TUI or plain), and
the default run path with output printing. -/
def afterLoad (r : GPTScript) (ext : Ext) (gptOpt : Options) (args : List String)
    (prg : Program) : List Effect × Except String Unit :=
  if r.ListTools then listTools ext.sortSlice ext prg
  else if args = [] then ([.helpEff], .ok ())
  else if r.Assemble then
    if r.Output ≠ "" ∧ r.Output ≠ "-" then
      match ext.createFile r.Output with
      | .error e => ([.createFileEff r.Output], .error ("opening " ++ r.Output ++ ": " ++ e))
      | .ok _ => ([.createFileEff r.Output, .assembleEff prg r.Output], ext.assembleRes prg)
    else ([.assembleEff prg "-"], ext.assembleRes prg)
  else
    match ext.inputFromCLI r.Input args with
    | .error e => ([], .error e)
    | .ok toolInput =>
      let trC : List Effect :=
        if r.ChatState ≠ "" ∧ r.ChatState ≠ "null" ∧ hasPrefixGo r.ChatState "\x7b" = false then
          [.readFileEff r.ChatState]
        else []
      match materializeChatState r.ChatState ext.readFile with
      | .error e => (trC, .error e)
      | .ok chatState =>
        if r.SaveChatStateFile = "-" ∨ r.SaveChatStateFile = "stdout" then
          match ext.chatRes chatState prg gptOpt.env toolInput with
          | .error e => (trC ++ [.chatStatelessEff chatState prg toolInput], .error e)
          | .ok resp =>
            match ext.jsonMarshal resp with
            | .error e => (trC ++ [.chatStatelessEff chatState prg toolInput], .error e)
            | .ok data =>
              let pr := PrintOutput r ext toolInput data
              (trC ++ [.chatStatelessEff chatState prg toolInput] ++ pr.1, pr.2)
        else if prg.IsChat ∨ r.ForceChat then
          if ¬ r.DisableTUI ∧ ¬ r.Debug ∧ ¬ r.DebugMessages then
            (trC ++ [.tuiRunEff (args.headD "") (String.intercalate " " (args.drop 1))
              chatState r.SaveChatStateFile], ext.tuiRes)
          else
            (trC ++ [.chatStartEff chatState toolInput r.SaveChatStateFile], ext.chatStartRes)
        else
          let trU : List Effect := if r.UI then [.clearExtraEnv] else []
          match ext.runRes prg gptOpt.env toolInput with
          | .error e => (trC ++ trU ++ [.runCollabEff prg toolInput], .error e)
          | .ok s =>
            let pr := PrintOutput r ext toolInput s
            (trC ++ trU ++ [.runCollabEff prg toolInput] ++ pr.1, pr.2)

/-- `Run` after a successful engine construction (gptscript.go:387-403
plus the rest): the list-models early return, the program load, the
daemon blocking mark and, after a daemon run that returns no error,
the wait for external cancellation (the deferred `<-ctx.Done()`). -/
def afterNew (r : GPTScript) (ext : Ext) (gptOpt : Options) (args : List String) :
    List Effect × Except String Unit :=
  if r.ListModels then
    match ext.listModelsRes args with
    | .error e => ([.listModelsEff args], .error e)
    | .ok models =>
      ([.listModelsEff args, .stdoutWrite (String.intercalate "\n" models ++ "\n")], .ok ())
  else
    let loaded := readProgram r ext args { stdinRead := false }
    match loaded.2.1 with
    | .error e => (loaded.1, .error e)
    | .ok prg0 =>
      let prg := if r.Daemon then prg0.SetBlocking else prg0
      let ran := afterLoad loaded.2.2.1 ext gptOpt args prg
      if r.Daemon then
        (loaded.1 ++ ran.1 ++ (match ran.2 with | .ok _ => [.waitCancel] | .error _ => []),
          ran.2)
      else (loaded.1 ++ ran.1, ran.2)

/-- `Run` (gptscript.go:325-485): options assembly, the UI rewrite, the
server early return, engine construction (with its deferred close),
and the rest of the invocation. -/
def Run (r0 : GPTScript) (ext : Ext) (args0 : List String) :
    List Effect × Except String Unit :=
  match NewGPTScriptOpts r0 ext with
  | .error e => ([], .error e)
  | .ok gptOpt0 =>
    match uiBlock r0 ext gptOpt0 args0 with
    | .error e => ([], .error e)
    | .ok (r, gptOpt, args) =>
      if r.Server then serverBlock ext
      else
        match ext.gptscriptNew with
        | .error e => ([.gptscriptNew], .error e)
        | .ok _ =>
          let ran := afterNew r ext gptOpt args
          ([.gptscriptNew] ++ ran.1 ++ [.gptClose], ran.2)

/-- The program argument carried by a trace effect, when there is one. -/
def progOf : Effect → Option Program
  | .listToolsEff p => some p
  | .assembleEff p _ => some p
  | .chatStatelessEff _ p _ => some p
  | .runCollabEff p _ => some p
  | _ => none

/-- Whether an effect is a program load (loader collaborator call). -/
def isLoadEff : Effect → Bool
  | .loadSource _ _ => true
  | .loadPath _ _ => true
  | _ => false

/-- Whether an effect is an interactive chat entry (TUI or plain loop). -/
def isInteractiveEff : Effect → Bool
  | .tuiRunEff _ _ _ _ => true
  | .chatStartEff _ _ _ => true
  | _ => false

/-- Whether an effect is a stateless chat turn. -/
def isChatTurn : Effect → Bool
  | .chatStatelessEff _ _ _ => true
  | _ => false

/-- A flag struct with every flag off and every string empty (the
cobra defaults of the fields this layer reads, with `Quiet` resolved
to false). -/
def rBase : GPTScript := {
  Confirm := false
  Quiet := false
  Output := ""
  EventsStreamTo := ""
  Input := ""
  SubTool := ""
  Assemble := false
  ListModels := false
  ListTools := false
  Server := false
  Daemon := false
  Ports := ""
  CredentialContext := "default"
  CredentialOverride := ""
  ChatState := ""
  ForceChat := false
  ForceSequential := false
  Workspace := ""
  UI := false
  DisableTUI := false
  Debug := false
  DebugMessages := false
  SaveChatStateFile := ""
  readData := ""
}

/-- A concrete collaborator environment in which every external call
succeeds, used for witnesses and counterexamples. -/
def extBase : Ext := {
  environ := []
  stdin := ""
  stdinReadErr := none
  readFile := fun _ => .error "no such file"
  newFileFactory := fun _ => .ok ()
  serverNew := .ok ()
  serverStart := .ok ()
  gptscriptNew := .ok ()
  listModelsRes := fun _ => .ok ["model-a"]
  progFromSource := fun _ _ => .ok emptyProgram
  progFromPath := fun p _ => .ok { name := p, blocking := false, chat := false }
  listToolsRes := fun _ => []
  toolRender := fun t => t.name ++ ":" ++ t.instructions ++ ":" ++ t.meta
  inputFromCLI := fun _ _ => .ok ""
  chatRes := fun _ _ _ _ => .ok "resp"
  jsonMarshal := fun s => .ok ("json " ++ s)
  tuiRes := .ok ()
  chatStartRes := .ok ()
  runRes := fun _ _ _ => .ok "out"
  assembleRes := fun _ => .ok ()
  createFile := fun _ => .ok ()
  writeFile := fun _ _ => .ok ()
  absPath := fun p => .ok ("/abs/" ++ p)
  dirOf := fun _ => "/abs"
  baseOf := fun p => p
  getwd := .ok "/cwd"
  uiTool := "github.com/gptscript-ai/ui@v2"
  binEnvSet := true
  bin := "gptscript"
  sortSlice := fun l => l
}

example : parseInt64 "80" = some 80 := by decide
example : parseInt64 " 80" = none := by decide
example : parseInt64 "-1" = some (-1) := by decide
example : parseInt64 "abc" = none := by decide
example : parseInt64 "" = none := by decide
example : cutDash "11000-12000" = ("11000", "12000") := by decide
example : cutDash "11000" = ("11000", "") := by decide
example : cutDash "11000-" = ("11000", "") := by decide
example : trimSpace " 80 " = "80" := by decide
example :
    NewGPTScriptOpts { rBase with Ports := "abc-12" } extBase
      = .error "invalid port range: abc-12" := by decide
example :
    (Run { rBase with Server := true, ListModels := true } extBase ["x"]).1
      = [.serverNew, .serverStart, .serverClose] := by decide
example :
    (Run rBase extBase []).1 = [.gptscriptNew, .helpEff, .gptClose] := by decide
example : materializeChatState "\x7b\x7d" extBase.readFile = .ok "" := by decide
example :
    countReads (acquireTimes 2 rBase extBase ["-"] { stdinRead := false }).1 = 2 := by
  decide

example : String.intercalate "\n---\n" ["a", "b"] = "a\n---\nb" := by decide

section HelperLemmas

theorem stdoutText_append (a b : List Effect) :
    stdoutText (a ++ b) = stdoutText a ++ stdoutText b := by
  induction a with
  | nil => simp [stdoutText]
  | cons e tr ih =>
    cases e <;> simp [stdoutText, ih, String.append_assoc]

theorem stderrText_append (a b : List Effect) :
    stderrText (a ++ b) = stderrText a ++ stderrText b := by
  induction a with
  | nil => simp [stderrText]
  | cons e tr ih =>
    cases e <;> simp [stderrText, ih, String.append_assoc]

/-- Every effect a `readProgram` call records is a stdin read or a
loader call. -/
theorem readProgram_effects (r : GPTScript) (ext : Ext) (args : List String)
    (st : ProcState) :
    ∀ e ∈ (readProgram r ext args st).1,
      e = Effect.readStdin ∨ (∃ d s, e = Effect.loadSource d s) ∨
        (∃ p s, e = Effect.loadPath p s) := by
  intro e he
  unfold readProgram at he
  rcases args with _ | ⟨a0, rest⟩
  · simp at he
  · by_cases h0 : a0 = "-"
    · simp only [if_pos h0] at he
      by_cases h1 : r.readData.length > 0
      · simp only [if_pos h1] at he
        simp at he
        simp [he]
      · simp only [if_neg h1] at he
        rcases h2 : ext.stdinReadErr with _ | e2 <;> simp only [h2] at he <;>
          simp at he <;> aesop
    · simp only [if_neg h0] at he
      simp at he
      simp [he]

/-- `readProgram` only ever changes the `readData` cache field. -/
theorem readProgram_readData_only (r : GPTScript) (ext : Ext) (args : List String)
    (st : ProcState) :
    ∃ d, (readProgram r ext args st).2.2.1 = { r with readData := d } := by
  unfold readProgram
  rcases args with _ | ⟨a0, rest⟩
  · exact ⟨r.readData, rfl⟩
  · by_cases h0 : a0 = "-"
    · simp only [if_pos h0]
      by_cases h1 : r.readData.length > 0
      · simp only [if_pos h1]
        exact ⟨r.readData, rfl⟩
      · simp only [if_neg h1]
        rcases h2 : ext.stdinReadErr with _ | e2 <;> simp only [h2]
        · exact ⟨_, rfl⟩
        · exact ⟨r.readData, rfl⟩
    · simp only [if_neg h0]
      exact ⟨r.readData, rfl⟩

/-- Every effect of `PrintOutput` is a stream or file write. -/
theorem PrintOutput_effects (r : GPTScript) (ext : Ext) (i o : String) :
    ∀ e ∈ (PrintOutput r ext i o).1,
      (∃ s, e = Effect.stderrWrite s) ∨ (∃ s, e = Effect.stdoutWrite s) ∨
        (∃ p c, e = Effect.fileWrite p c) := by
  intro e he
  unfold PrintOutput at he
  by_cases hf : r.Output ≠ "" ∧ r.Output ≠ "-"
  · simp only [if_pos hf] at he
    rcases hw : ext.writeFile r.Output o with e1 | u <;> simp only [hw] at he <;>
      simp at he <;> simp [he]
  · simp only [if_neg hf] at he
    cases hq : r.Quiet <;> cases hn : hasSuffixGo o "\n" <;>
      by_cases hi : i = "" <;> simp [hq, hn, hi] at he <;> aesop

/-- Classification of `PrintOutput` effects: never a program-carrying,
waiting, loading or chat effect. -/
theorem PrintOutput_mem (r : GPTScript) (ext : Ext) (i o : String) :
    ∀ e ∈ (PrintOutput r ext i o).1,
      progOf e = none ∧ e ≠ Effect.waitCancel ∧ isInteractiveEff e = false ∧
        isChatTurn e = false ∧ isLoadEff e = false ∧
        (∀ a, e ≠ Effect.listModelsEff a) ∧ e ≠ Effect.helpEff := by
  intro e he
  rcases PrintOutput_effects r ext i o e he with ⟨s, rfl⟩ | ⟨s, rfl⟩ | ⟨p, c, rfl⟩ <;>
    simp [progOf, isInteractiveEff, isChatTurn, isLoadEff]

/-- Classification of `readProgram` effects: never a program-carrying,
waiting, chat or write effect. -/
theorem readProgram_mem (r : GPTScript) (ext : Ext) (args : List String)
    (st : ProcState) :
    ∀ e ∈ (readProgram r ext args st).1,
      progOf e = none ∧ e ≠ Effect.waitCancel ∧ isInteractiveEff e = false ∧
        isChatTurn e = false ∧ (∀ s, e ≠ Effect.stdoutWrite s) ∧
        e ≠ Effect.helpEff := by
  intro e he
  rcases readProgram_effects r ext args st e he with rfl | ⟨d, s, rfl⟩ | ⟨p, s, rfl⟩ <;>
    simp [progOf, isInteractiveEff, isChatTurn]

/-- A trace without standard-output writes contributes no output text. -/
theorem stdoutText_eq_empty (tr : List Effect)
    (h : ∀ e ∈ tr, ∀ s, e ≠ Effect.stdoutWrite s) : stdoutText tr = "" := by
  induction tr with
  | nil => rfl
  | cons e rest ih =>
    have he := h e (by simp)
    have hr : ∀ e ∈ rest, ∀ s, e ≠ Effect.stdoutWrite s := fun x hx => h x (by simp [hx])
    cases e <;> simp [stdoutText, ih hr]
    exact absurd rfl (he _)

/-- Every effect recorded after a successful load carries either no
program or exactly the program the caller passed in, and none of them
is the cancellation wait. -/
theorem afterLoad_effects (r : GPTScript) (ext : Ext) (o : Options)
    (args : List String) (prg : Program) :
    ∀ e ∈ (afterLoad r ext o args prg).1,
      (∀ p, progOf e = some p → p = prg) ∧ e ≠ Effect.waitCancel := by
  intro e he
  have hP := PrintOutput_mem r ext
  unfold afterLoad listTools at he
  dsimp only at he
  repeat' split at he
  all_goals
    simp only [List.mem_append, List.mem_cons, List.not_mem_nil, or_false,
      false_or] at he
  all_goals
    try (rcases he with he | he)
  all_goals
    try (rcases he with he | he)
  all_goals
    try (rcases he with he | he)
  all_goals
    try (subst he)
  all_goals
    first
      | exact absurd he (by simp)
      | (rcases hP _ _ e he with ⟨h1, h2, _⟩;
          exact ⟨fun p hp => by simp [h1] at hp, h2⟩)
      | (refine ⟨fun p hp => ?_, by simp⟩; simp [progOf] at hp; try exact hp.symm)

/-- Once the cache is non-empty, every further acquisition replays the
cached bytes through the loader and touches neither the stream nor any
state. -/
theorem acquireTimes_cached (n : Nat) (r : GPTScript) (ext : Ext)
    (rest : List String) (st : ProcState) (hc : r.readData.length > 0) :
    acquireTimes n r ext ("-" :: rest) st
      = (List.replicate n (Effect.loadSource r.readData r.SubTool), r, st) := by
  induction n with
  | zero => simp [acquireTimes]
  | succ m ih =>
    simp [acquireTimes, readProgram, if_pos hc, ih, List.replicate_succ]

end HelperLemmas

section ClaimC2

/-- C2 (amended): when the first program argument is the stdin sentinel
"-", the cache starts empty and the stream holds at least one byte,
then any number of acquisitions in one process reads the stream at most
once, every loader call is fed the bytes of that first read, and after
the first acquisition the cache holds exactly those bytes. -/
theorem C2_stdin_cached (n : Nat) (r : GPTScript) (ext : Ext) (rest : List String)
    (hcache : r.readData = "") (hstdin : 0 < ext.stdin.length)
    (herr : ext.stdinReadErr = none) :
    countReads (acquireTimes n r ext ("-" :: rest) { stdinRead := false }).1 ≤ 1 ∧
    (∀ d s, Effect.loadSource d s ∈ (acquireTimes n r ext ("-" :: rest) { stdinRead := false }).1 →
      d = ext.stdin) ∧
    (1 ≤ n → (acquireTimes n r ext ("-" :: rest) { stdinRead := false }).2.1.readData = ext.stdin) := by
  cases n with
  | zero => simp [acquireTimes, countReads]
  | succ m =>
    have h1 : readProgram r ext ("-" :: rest) { stdinRead := false }
        = ([.readStdin, .loadSource ext.stdin r.SubTool],
            ext.progFromSource ext.stdin r.SubTool,
            { r with readData := ext.stdin }, { stdinRead := true }) := by
      simp [readProgram, hcache, herr]
    have h2 := acquireTimes_cached m { r with readData := ext.stdin } ext rest
      { stdinRead := true } (by simpa using hstdin)
    have h3 : acquireTimes (m + 1) r ext ("-" :: rest) { stdinRead := false }
        = ([.readStdin, .loadSource ext.stdin r.SubTool]
            ++ List.replicate m (Effect.loadSource ext.stdin r.SubTool),
           { r with readData := ext.stdin }, { stdinRead := true }) := by
      simp only [acquireTimes, h1]
      simp [h2]
    refine ⟨?_, ?_, ?_⟩
    · rw [h3]
      have : ∀ k, countReads (List.replicate k (Effect.loadSource ext.stdin r.SubTool)) = 0 := by
        intro k
        induction k with
        | zero => rfl
        | succ j ih => simp [countReads, List.replicate_succ, List.filter]
      simp [countReads, List.filter, this]
    · rw [h3]
      intro d s hd
      simp [List.mem_append, List.mem_replicate] at hd
      rcases hd with ⟨hd, _⟩ | ⟨_, hd, _⟩ <;> exact hd
    · intro _
      rw [h3]

/-- C2, counterexample to the claim as stated: with an empty standard
input the guard `len(r.readData) > 0` never becomes true, so two
acquisitions in the same process read the stream twice, not at most
once. -/
theorem C2_empty_stdin_reread :
    countReads (acquireTimes 2 rBase extBase ["-"] { stdinRead := false }).1 = 2 := by
  decide

/-- Collaborators for the C2 witness: a stream with actual bytes. -/
def extC2 : Ext := { extBase with stdin := "tool body" }

/-- Witness for `C2_stdin_cached` at two acquisitions of a non-empty
stream. -/
theorem C2_stdin_cached_witness :
    countReads (acquireTimes 2 rBase extC2 ["-"] { stdinRead := false }).1 ≤ 1 ∧
    (∀ d s, Effect.loadSource d s ∈ (acquireTimes 2 rBase extC2 ["-"] { stdinRead := false }).1 →
      d = extC2.stdin) ∧
    (1 ≤ 2 → (acquireTimes 2 rBase extC2 ["-"] { stdinRead := false }).2.1.readData = extC2.stdin) :=
  C2_stdin_cached 2 rBase extC2 [] rfl (by decide) rfl

end ClaimC2

section ClaimC3

/-- C3: how `Run` materializes the raw chat-state token
(gptscript.go:432-439).  The empty token and the literal "null" yield a
fresh (empty) state and a file-path token is read fully with read
failures reported with the path — but a token opening with a brace
(inline JSON) is NOT used verbatim: `chatState` is declared empty and
the guarded branch is skipped, so the inline state is silently dropped
and the session starts fresh.  This contradicts the claim's
"used verbatim as the initial state" (a code bug: the brace guard only
makes sense as an inline-JSON pass-through). -/
theorem C3_inline_state_dropped :
    ∀ f : String → Except String Bytes,
      materializeChatState "\x7b\"prior\":[]\x7d" f = .ok "" ∧
      materializeChatState "" f = .ok "" ∧
      materializeChatState "null" f = .ok "" ∧
      materializeChatState "cs.json" f
        = (match f "cs.json" with
           | .error e => .error ("reading cs.json: " ++ e)
           | .ok d => .ok d) := by
  intro f
  refine ⟨rfl, rfl, rfl, ?_⟩
  unfold materializeChatState
  rw [if_pos (by decide)]
  rcases f "cs.json" with e | d <;> rfl

end ClaimC3

section ClaimC5

/-- C5: a non-empty port-range string whose start bound (or supplied
end bound) fails integer parsing makes `NewGPTScriptOpts` return the
error naming the range string and never an options value; when both
parse and the end bound is absent, the end port defaults to zero. -/
theorem C5_port_range_validation (r : GPTScript) (ext : Ext)
    (hne : r.Ports ≠ "") :
    (parseInt64 (trimSpace (cutDash r.Ports).1) = none ∨
        ((cutDash r.Ports).2 ≠ "" ∧ parseInt64 (trimSpace (cutDash r.Ports).2) = none) →
      NewGPTScriptOpts r ext = .error ("invalid port range: " ++ r.Ports)) ∧
    (∀ s : Int, parseInt64 (trimSpace (cutDash r.Ports).1) = some s →
      (cutDash r.Ports).2 = "" → r.EventsStreamTo = "" →
      NewGPTScriptOpts r ext = .ok {
        quiet := r.Quiet
        env := ext.environ
        credentialContext := r.CredentialContext
        workspace := r.Workspace
        runner := {
          credentialOverride := r.CredentialOverride
          sequential := r.ForceSequential
          startPort := s
          endPort := 0
          authorizer := r.Confirm
          monitorFactorySet := false } }) := by
  constructor
  · intro hbad
    rcases hbad with h1 | ⟨h2, h3⟩
    · simp [NewGPTScriptOpts, hne, h1]
    · rcases hs : parseInt64 (trimSpace (cutDash r.Ports).1) with _ | s
      · simp [NewGPTScriptOpts, hne, hs]
      · simp [NewGPTScriptOpts, hne, hs, h2, h3]
  · intro s hs hend hev
    simp [NewGPTScriptOpts, hne, hs, hend, hev]

/-- Witness for `C5_port_range_validation`: the range "abc" is rejected
with the error naming it, and the range "80" resolves with start port
80 and default end port 0. -/
theorem C5_port_range_validation_witness :
    NewGPTScriptOpts { rBase with Ports := "abc" } extBase
        = .error "invalid port range: abc" ∧
    NewGPTScriptOpts { rBase with Ports := "80" } extBase
        = .ok {
          quiet := false
          env := []
          credentialContext := "default"
          workspace := ""
          runner := {
            credentialOverride := ""
            sequential := false
            startPort := 80
            endPort := 0
            authorizer := false
            monitorFactorySet := false } } :=
  ⟨(C5_port_range_validation { rBase with Ports := "abc" } extBase (by decide)).1
      (Or.inl (by decide)),
   (C5_port_range_validation { rBase with Ports := "80" } extBase (by decide)).2
      80 (by decide) (by decide) rfl⟩

end ClaimC5

section ClaimC6

/-- C6: with no named output file, quiet off and non-empty input, the
emitted text is exactly the input echo, the labeled OUTPUT boundary and
the result, in that order; and in every such call (quiet or not) the
result goes to standard output with one newline appended exactly when
it does not already end in one. -/
theorem C6_print_output (r : GPTScript) (ext : Ext) (toolInput toolOutput : String)
    (hfile : r.Output = "" ∨ r.Output = "-") :
    (r.Quiet = false → toolInput ≠ "" →
      stderrText (PrintOutput r ext toolInput toolOutput).1
          ++ stdoutText (PrintOutput r ext toolInput toolOutput).1
        = "\nINPUT:\n\n" ++ toolInput ++ "\n" ++ "\nOUTPUT:\n\n" ++ toolOutput
            ++ (if hasSuffixGo toolOutput "\n" = true then "" else "\n")) ∧
    stdoutText (PrintOutput r ext toolInput toolOutput).1
      = toolOutput ++ (if hasSuffixGo toolOutput "\n" = true then "" else "\n") := by
  have hf : ¬ (r.Output ≠ "" ∧ r.Output ≠ "-") := by
    rcases hfile with h | h <;> simp [h]
  constructor
  · intro hq hi
    cases hn : hasSuffixGo toolOutput "\n" <;>
      · apply String.ext
        simp [PrintOutput, hf, hq, hi, hn, stderrText, stdoutText, String.data_append]
  · cases hq : r.Quiet <;> by_cases hi : toolInput = "" <;>
      cases hn : hasSuffixGo toolOutput "\n" <;>
      · apply String.ext
        simp [PrintOutput, hf, hq, hi, hn, stderrText, stdoutText, String.data_append]

/-- Witness for `C6_print_output` at a concrete non-quiet call with
input "in" and a result "res" lacking a trailing newline. -/
theorem C6_print_output_witness :
    (rBase.Quiet = false → "in" ≠ "" →
      stderrText (PrintOutput rBase extBase "in" "res").1
          ++ stdoutText (PrintOutput rBase extBase "in" "res").1
        = "\nINPUT:\n\n" ++ "in" ++ "\n" ++ "\nOUTPUT:\n\n" ++ "res"
            ++ (if hasSuffixGo "res" "\n" = true then "" else "\n")) ∧
    stdoutText (PrintOutput rBase extBase "in" "res").1
      = "res" ++ (if hasSuffixGo "res" "\n" = true then "" else "\n") :=
  C6_print_output rBase extBase "in" "res" (Or.inl rfl)

end ClaimC6

section ClaimC1

/-- The UI rewrite never changes the server flag. -/
theorem uiBlock_Server (r : GPTScript) (ext : Ext) (o : Options) (args0 : List String)
    (r1 : GPTScript) (o1 : Options) (args1 : List String)
    (h : uiBlock r ext o args0 = .ok (r1, o1, args1)) : r1.Server = r.Server := by
  unfold uiBlock at h
  repeat' split at h
  all_goals aesop

/-- C1: with the server flag set, no path of `Run` ever calls the
loader, and — whenever configuration resolution and the UI rewrite do
not fail first — `Run` is exactly the server block (create, start,
deferred close) and returns its result; the list-models flag is left
unconstrained, so the statement covers invocations with it set. -/
theorem C1_server_precedence (r0 : GPTScript) (ext : Ext) (args0 : List String)
    (hs : r0.Server = true) :
    (∀ e ∈ (Run r0 ext args0).1, isLoadEff e = false) ∧
    (∀ (o o1 : Options) (r1 : GPTScript) (args1 : List String),
      NewGPTScriptOpts r0 ext = .ok o →
      uiBlock r0 ext o args0 = .ok (r1, o1, args1) →
      Run r0 ext args0 = serverBlock ext) := by
  constructor
  · intro e he
    unfold Run at he
    rcases ho : NewGPTScriptOpts r0 ext with er | o <;> rw [ho] at he <;>
      dsimp only at he
    · simp at he
    · rcases hu : uiBlock r0 ext o args0 with er | ⟨r1, o1, args1⟩ <;> rw [hu] at he <;>
        dsimp only at he
      · simp at he
      · have hsv : r1.Server = true := by
          rw [uiBlock_Server r0 ext o args0 r1 o1 args1 hu]; exact hs
        simp only [hsv] at he
        simp at he
        unfold serverBlock at he
        rcases h1 : ext.serverNew with e1 | u <;> rw [h1] at he
        · simp at he; simp [he, isLoadEff]
        · rcases h2 : ext.serverStart with e2 | u2 <;> rw [h2] at he <;>
            simp at he <;> rcases he with rfl | rfl | rfl <;> simp [isLoadEff]
  · intro o o1 r1 args1 ho hu
    have hsv : r1.Server = true := by
      rw [uiBlock_Server r0 ext o args0 r1 o1 args1 hu]; exact hs
    simp [Run, ho, hu, hsv]

/-- Witness for `C1_server_precedence`: server and list-models both
set; the invocation is exactly the server block and loads nothing. -/
theorem C1_server_precedence_witness :
    (∀ e ∈ (Run { rBase with Server := true, ListModels := true } extBase ["x"]).1,
      isLoadEff e = false) ∧
    Run { rBase with Server := true, ListModels := true } extBase ["x"]
      = serverBlock extBase :=
  ⟨(C1_server_precedence { rBase with Server := true, ListModels := true }
      extBase ["x"] rfl).1,
   (C1_server_precedence { rBase with Server := true, ListModels := true }
      extBase ["x"] rfl).2 _ _ _ _ rfl rfl⟩

end ClaimC1

section ClaimC10

/-- C10: with the UI flag set and "-" as the first positional argument,
`Run` fails with the chat-UI error as soon as configuration resolution
has succeeded, and in every case (even a configuration failure) the
trace is empty — no server start, no program load, no run or chat
collaborator call. -/
theorem C10_ui_stdin_error (r0 : GPTScript) (ext : Ext) (rest : List String)
    (hui : r0.UI = true) :
    (∀ o : Options, NewGPTScriptOpts r0 ext = .ok o →
      Run r0 ext ("-" :: rest)
        = ([], .error "chat UI only supports files, cannot read from stdin")) ∧
    (Run r0 ext ("-" :: rest)).1 = [] := by
  constructor
  · intro o ho
    simp [Run, ho, uiBlock, hui]
  · rcases ho : NewGPTScriptOpts r0 ext with e | o
    · simp [Run, ho]
    · simp [Run, ho, uiBlock, hui]

/-- Witness for `C10_ui_stdin_error` at a concrete invocation. -/
theorem C10_ui_stdin_error_witness :
    (∀ o : Options, NewGPTScriptOpts { rBase with UI := true } extBase = .ok o →
      Run { rBase with UI := true } extBase ["-"]
        = ([], .error "chat UI only supports files, cannot read from stdin")) ∧
    (Run { rBase with UI := true } extBase ["-"]).1 = [] :=
  C10_ui_stdin_error { rBase with UI := true } extBase [] rfl

end ClaimC10

section ClaimC7

/-- C7 (amended): with no positional arguments and the server,
list-models, list-tools AND ui flags unset, once configuration and
engine construction succeed, acquisition returns the empty `Program`
sentinel without error and `Run` shows the usage help and returns
without error (after the cancellation wait when the daemon flag is
set). -/
theorem C7_help_fallback (r0 : GPTScript) (ext : Ext) (o : Options)
    (hui : r0.UI = false) (hs : r0.Server = false) (hlm : r0.ListModels = false)
    (hlt : r0.ListTools = false)
    (hopts : NewGPTScriptOpts r0 ext = .ok o) (hnew : ext.gptscriptNew = .ok ()) :
    readProgram r0 ext [] { stdinRead := false }
        = ([], .ok emptyProgram, r0, { stdinRead := false }) ∧
    Run r0 ext []
      = ([Effect.gptscriptNew, Effect.helpEff]
          ++ (if r0.Daemon = true then [Effect.waitCancel] else [])
          ++ [Effect.gptClose], .ok ()) := by
  refine ⟨rfl, ?_⟩
  have hub : uiBlock r0 ext o [] = .ok (r0, o, []) := by simp [uiBlock, hui]
  cases hd : r0.Daemon <;>
    simp [Run, hopts, hub, hs, hnew, afterNew, hlm, readProgram, afterLoad, hlt, hd]

/-- Witness for `C7_help_fallback` at a concrete flagless invocation. -/
theorem C7_help_fallback_witness :
    readProgram rBase extBase [] { stdinRead := false }
        = ([], .ok emptyProgram, rBase, { stdinRead := false }) ∧
    Run rBase extBase []
      = ([Effect.gptscriptNew, Effect.helpEff]
          ++ (if rBase.Daemon = true then [Effect.waitCancel] else [])
          ++ [Effect.gptClose], .ok ()) :=
  C7_help_fallback rBase extBase _ rfl rfl rfl rfl rfl rfl

/-- C7, counterexample to the claim as stated: the claim omits the UI
flag; with it set (and no positional arguments) the argument list is
rewritten to the companion UI tool and `Run` never shows the usage
help. -/
theorem C7_ui_no_help :
    Effect.helpEff ∉ (Run { rBase with UI := true } extBase []).1 := by decide

end ClaimC7

section ClaimC8

/-- A Boolean-predicate filter of a list in which the predicate never
holds is empty. -/
theorem filter_eq_nil_of_none (p : Effect → Bool) (tr : List Effect)
    (h : ∀ e ∈ tr, p e = false) : tr.filter p = [] := by
  induction tr with
  | nil => rfl
  | cons e rest ih =>
    have he := h e (by simp)
    have hr : ∀ x ∈ rest, p x = false := fun x hx => h x (by simp [hx])
    simp [List.filter, he, ih hr]

/-- C8: with the daemon flag set (after the UI rewrite), once the
invocation reaches a successful program load, every program handed to
a collaborator afterwards carries the blocking mark, a run that ends
without error only returns after the cancellation wait, and a run that
ends in an error returns without any wait. -/
theorem C8_daemon_blocking (r0 : GPTScript) (ext : Ext) (args0 : List String)
    (o0 o1 : Options) (r1 r2 : GPTScript) (args1 : List String)
    (prg0 : Program) (tr1 : List Effect) (st2 : ProcState)
    (hopts : NewGPTScriptOpts r0 ext = .ok o0)
    (hub : uiBlock r0 ext o0 args0 = .ok (r1, o1, args1))
    (hd : r1.Daemon = true) (hs : r1.Server = false)
    (hnew : ext.gptscriptNew = .ok ())
    (hlm : r1.ListModels = false)
    (hload : readProgram r1 ext args1 { stdinRead := false } = (tr1, .ok prg0, r2, st2)) :
    (∀ e ∈ (Run r0 ext args0).1, ∀ p, progOf e = some p → p.blocking = true) ∧
    ((Run r0 ext args0).2 = .ok () →
      ∃ pre, (Run r0 ext args0).1 = pre ++ [Effect.waitCancel, Effect.gptClose]) ∧
    (∀ err, (Run r0 ext args0).2 = .error err →
      Effect.waitCancel ∉ (Run r0 ext args0).1) := by
  have htr1 : ∀ e ∈ tr1, progOf e = none ∧ e ≠ Effect.waitCancel := by
    have h := readProgram_mem r1 ext args1 { stdinRead := false }
    rw [hload] at h
    exact fun e he => ⟨(h e he).1, (h e he).2.1⟩
  have hAL := afterLoad_effects r2 ext o1 args1 prg0.SetBlocking
  have hrun : Run r0 ext args0
      = ([Effect.gptscriptNew] ++ (tr1 ++ ((afterLoad r2 ext o1 args1 prg0.SetBlocking).1
          ++ (match (afterLoad r2 ext o1 args1 prg0.SetBlocking).2 with
              | .ok _ => [Effect.waitCancel] | .error _ => []))) ++ [Effect.gptClose],
        (afterLoad r2 ext o1 args1 prg0.SetBlocking).2) := by
    simp [Run, hopts, hub, hs, hnew, afterNew, hlm, hload, hd]
  refine ⟨?_, ?_, ?_⟩
  · intro e he p hp
    rw [hrun] at he
    rcases hres : (afterLoad r2 ext o1 args1 prg0.SetBlocking).2 with er | u <;>
      rw [hres] at he <;> dsimp only at he <;>
      simp only [List.mem_append, List.mem_cons, List.not_mem_nil, or_false] at he
    · rcases he with (rfl | he | he) | rfl
      · simp [progOf] at hp
      · exact absurd hp (by simp [(htr1 e he).1])
      · rw [(hAL e he).1 p hp]; rfl
      · simp [progOf] at hp
    · rcases he with (rfl | he | he | rfl) | rfl
      · simp [progOf] at hp
      · exact absurd hp (by simp [(htr1 e he).1])
      · rw [(hAL e he).1 p hp]; rfl
      · simp [progOf] at hp
      · simp [progOf] at hp
  · intro hok
    rw [hrun] at hok
    dsimp only at hok
    rw [hrun]
    dsimp only
    rw [hok]
    exact ⟨[Effect.gptscriptNew] ++ (tr1 ++ (afterLoad r2 ext o1 args1 prg0.SetBlocking).1),
      by simp⟩
  · intro err herr
    rw [hrun] at herr
    dsimp only at herr
    rw [hrun]
    dsimp only
    rw [herr]
    dsimp only
    simp only [List.mem_append, List.mem_cons, List.not_mem_nil, or_false,
      List.append_nil]
    intro hc
    rcases hc with (hc | hc | hc) | hc
    · simp at hc
    · exact absurd rfl (htr1 _ hc).2
    · exact absurd rfl (hAL _ hc).2
    · simp at hc

/-- Witness for `C8_daemon_blocking`: a daemon invocation of a plain
tool; its run ends without error and waits for cancellation. -/
theorem C8_daemon_blocking_witness :
    (∀ e ∈ (Run { rBase with Daemon := true } extBase ["t"]).1,
      ∀ p, progOf e = some p → p.blocking = true) ∧
    ((Run { rBase with Daemon := true } extBase ["t"]).2 = .ok () →
      ∃ pre, (Run { rBase with Daemon := true } extBase ["t"]).1
        = pre ++ [Effect.waitCancel, Effect.gptClose]) ∧
    (∀ err, (Run { rBase with Daemon := true } extBase ["t"]).2 = .error err →
      Effect.waitCancel ∉ (Run { rBase with Daemon := true } extBase ["t"]).1) :=
  C8_daemon_blocking { rBase with Daemon := true } extBase ["t"]
    _ _ _ _ _ _ _ _ rfl rfl rfl rfl rfl rfl rfl

end ClaimC8

section ClaimC9

/-- The stateless-chat path of `afterLoad`: with the save target a
stateless marker, exactly one chat turn runs, no interactive loop is
entered, and the marshalled response is printed as the result. -/
theorem afterLoad_stateless (r : GPTScript) (ext : Ext) (o : Options)
    (args : List String) (prg : Program) (input cs resp data : String)
    (hlt : r.ListTools = false) (hargs : args ≠ []) (hasm : r.Assemble = false)
    (hinput : ext.inputFromCLI r.Input args = .ok input)
    (hcs : materializeChatState r.ChatState ext.readFile = .ok cs)
    (hsv : r.SaveChatStateFile = "-" ∨ r.SaveChatStateFile = "stdout")
    (hchat : ext.chatRes cs prg o.env input = .ok resp)
    (hjson : ext.jsonMarshal resp = .ok data) :
    (afterLoad r ext o args prg).1.filter isChatTurn
        = [Effect.chatStatelessEff cs prg input] ∧
    (∀ e ∈ (afterLoad r ext o args prg).1, isInteractiveEff e = false) ∧
    stdoutText (afterLoad r ext o args prg).1
        = stdoutText (PrintOutput r ext input data).1 ∧
    (afterLoad r ext o args prg).2 = (PrintOutput r ext input data).2 := by
  have hal : afterLoad r ext o args prg
      = ((if r.ChatState ≠ "" ∧ r.ChatState ≠ "null" ∧ hasPrefixGo r.ChatState "\x7b" = false
            then [Effect.readFileEff r.ChatState] else [])
          ++ [Effect.chatStatelessEff cs prg input]
          ++ (PrintOutput r ext input data).1,
        (PrintOutput r ext input data).2) := by
    rcases hsv with hsv | hsv <;>
      simp [afterLoad, hlt, hargs, hasm, hinput, hcs, hsv, hchat, hjson]
  have fPR : (PrintOutput r ext input data).1.filter isChatTurn = [] :=
    filter_eq_nil_of_none _ _
      (fun e he => (PrintOutput_mem r ext input data e he).2.2.2.1)
  have sPR : ∀ e ∈ (PrintOutput r ext input data).1, isInteractiveEff e = false :=
    fun e he => (PrintOutput_mem r ext input data e he).2.2.1
  have fC : (if r.ChatState ≠ "" ∧ r.ChatState ≠ "null" ∧ hasPrefixGo r.ChatState "\x7b" = false
      then [Effect.readFileEff r.ChatState] else ([] : List Effect)).filter isChatTurn = [] := by
    split <;> rfl
  have sC : stdoutText (if r.ChatState ≠ "" ∧ r.ChatState ≠ "null" ∧ hasPrefixGo r.ChatState "\x7b" = false
      then [Effect.readFileEff r.ChatState] else ([] : List Effect)) = "" := by
    split <;> rfl
  refine ⟨?_, ?_, ?_, ?_⟩
  · rw [hal]
    dsimp only
    simp only [List.filter_append, fPR, fC]
    simp [List.filter, isChatTurn]
  · intro e he
    rw [hal] at he
    dsimp only at he
    simp only [List.mem_append, List.mem_cons, List.not_mem_nil, or_false] at he
    rcases he with (he | rfl) | he
    · split at he
      · simp at he; subst he; rfl
      · simp at he
    · rfl
    · exact sPR e he
  · rw [hal]
    dsimp only
    rw [stdoutText_append, stdoutText_append, sC]
    have s1 : stdoutText [Effect.chatStatelessEff cs prg input] = "" := rfl
    rw [s1]
    apply String.ext
    simp [String.data_append]
  · rw [hal]

/-- C9: when the chat-state save target is the stateless marker "-" or
"stdout" and the invocation reaches the chat path, exactly one chat
turn runs against the given prior state and input, its marshalled
response is printed as the program result, and no interactive chat
loop (TUI or plain) is entered — the chat-capability flag of the
program and the force-chat flag are left unconstrained. -/
theorem C9_stateless_chat
    (r0 : GPTScript) (ext : Ext) (args0 : List String)
    (o0 o1 : Options) (r1 r2 : GPTScript) (args1 : List String)
    (prg0 : Program) (tr1 : List Effect) (st2 : ProcState)
    (cs input resp data : String)
    (hopts : NewGPTScriptOpts r0 ext = .ok o0)
    (hub : uiBlock r0 ext o0 args0 = .ok (r1, o1, args1))
    (hs : r1.Server = false)
    (hnew : ext.gptscriptNew = .ok ())
    (hlm : r1.ListModels = false)
    (hload : readProgram r1 ext args1 { stdinRead := false } = (tr1, .ok prg0, r2, st2))
    (hlt : r1.ListTools = false)
    (hargs : args1 ≠ [])
    (hasm : r1.Assemble = false)
    (hinput : ext.inputFromCLI r1.Input args1 = .ok input)
    (hcs : materializeChatState r1.ChatState ext.readFile = .ok cs)
    (hsave : r1.SaveChatStateFile = "-" ∨ r1.SaveChatStateFile = "stdout")
    (hchat : ext.chatRes cs (if r1.Daemon = true then prg0.SetBlocking else prg0)
        o1.env input = .ok resp)
    (hjson : ext.jsonMarshal resp = .ok data) :
    (Run r0 ext args0).1.filter isChatTurn
        = [Effect.chatStatelessEff cs
            (if r1.Daemon = true then prg0.SetBlocking else prg0) input] ∧
    (∀ e ∈ (Run r0 ext args0).1, isInteractiveEff e = false) ∧
    stdoutText (Run r0 ext args0).1 = stdoutText (PrintOutput r1 ext input data).1 ∧
    (Run r0 ext args0).2 = (PrintOutput r1 ext input data).2 := by
  obtain ⟨dd, hr2⟩ : ∃ d, r2 = { r1 with readData := d } := by
    have h := readProgram_readData_only r1 ext args1 { stdinRead := false }
    rw [hload] at h
    simpa using h
  subst hr2
  have htr1 := readProgram_mem r1 ext args1 { stdinRead := false }
  rw [hload] at htr1
  dsimp only at htr1
  have hpr : PrintOutput { r1 with readData := dd } ext input data
      = PrintOutput r1 ext input data := by
    simp [PrintOutput]
  have hAL := afterLoad_stateless { r1 with readData := dd } ext o1 args1
    (if r1.Daemon = true then prg0.SetBlocking else prg0) input cs resp data
    hlt hargs hasm hinput hcs hsave hchat hjson
  rw [hpr] at hAL
  have hrun : Run r0 ext args0
      = ([Effect.gptscriptNew] ++ tr1
          ++ (afterLoad { r1 with readData := dd } ext o1 args1
                (if r1.Daemon = true then prg0.SetBlocking else prg0)).1
          ++ (if r1.Daemon = true then
                (match (afterLoad { r1 with readData := dd } ext o1 args1
                    (if r1.Daemon = true then prg0.SetBlocking else prg0)).2 with
                 | .ok _ => [Effect.waitCancel] | .error _ => [])
              else [])
          ++ [Effect.gptClose],
        (afterLoad { r1 with readData := dd } ext o1 args1
            (if r1.Daemon = true then prg0.SetBlocking else prg0)).2) := by
    cases hd : r1.Daemon <;>
      simp [Run, hopts, hub, hs, hnew, afterNew, hlm, hload, hd]
  have hW : ∀ e ∈ (if r1.Daemon = true then
        (match (afterLoad { r1 with readData := dd } ext o1 args1
            (if r1.Daemon = true then prg0.SetBlocking else prg0)).2 with
         | .ok _ => [Effect.waitCancel] | .error _ => [])
      else ([] : List Effect)), e = Effect.waitCancel := by
    generalize (afterLoad { r1 with readData := dd } ext o1 args1
        (if r1.Daemon = true then prg0.SetBlocking else prg0)).2 = R2
    intro e he
    cases hd : r1.Daemon <;> rw [hd] at he
    · simp at he
    · rw [if_pos rfl] at he
      rcases R2 with er | u <;> simp at he
      exact he
  have ftr1 : tr1.filter isChatTurn = [] :=
    filter_eq_nil_of_none _ _ (fun e he => (htr1 e he).2.2.2.1)
  have fW : (if r1.Daemon = true then
        (match (afterLoad { r1 with readData := dd } ext o1 args1
            (if r1.Daemon = true then prg0.SetBlocking else prg0)).2 with
         | .ok _ => [Effect.waitCancel] | .error _ => [])
      else ([] : List Effect)).filter isChatTurn = [] :=
    filter_eq_nil_of_none _ _ (fun e he => by rw [hW e he]; rfl)
  refine ⟨?_, ?_, ?_, ?_⟩
  · rw [hrun]
    dsimp only
    simp only [List.filter_append, ftr1, fW, hAL.1]
    simp [List.filter, isChatTurn]
  · intro e he
    rw [hrun] at he
    dsimp only at he
    simp only [List.mem_append, List.mem_cons, List.not_mem_nil, or_false,
      false_or] at he
    rcases he with (((rfl | he) | he) | he) | rfl
    · rfl
    · exact (htr1 e he).2.2.1
    · exact hAL.2.1 e he
    · rw [hW e he]; rfl
    · rfl
  · rw [hrun]
    dsimp only
    rw [stdoutText_append, stdoutText_append, stdoutText_append, stdoutText_append]
    have s1 : stdoutText tr1 = "" :=
      stdoutText_eq_empty tr1 (fun e he => (htr1 e he).2.2.2.2.1)
    have s2 : stdoutText (if r1.Daemon = true then
        (match (afterLoad { r1 with readData := dd } ext o1 args1
            (if r1.Daemon = true then prg0.SetBlocking else prg0)).2 with
         | .ok _ => [Effect.waitCancel] | .error _ => [])
      else ([] : List Effect)) = "" :=
      stdoutText_eq_empty _ (fun e he s => by rw [hW e he]; simp)
    rw [s1, s2, hAL.2.2.1]
    apply String.ext
    simp [stdoutText, String.data_append]
  · rw [hrun]
    dsimp only
    exact hAL.2.2.2

/-- Witness for `C9_stateless_chat`: a stateless-chat invocation with
save target "-" on a concrete tool. -/
theorem C9_stateless_chat_witness :
    (Run { rBase with SaveChatStateFile := "-" } extBase ["t"]).1.filter isChatTurn
        = [Effect.chatStatelessEff ""
            (if ({ rBase with SaveChatStateFile := "-" } : GPTScript).Daemon = true
              then (Program.SetBlocking { name := "t", blocking := false, chat := false })
              else { name := "t", blocking := false, chat := false }) ""] ∧
    (∀ e ∈ (Run { rBase with SaveChatStateFile := "-" } extBase ["t"]).1,
      isInteractiveEff e = false) ∧
    stdoutText (Run { rBase with SaveChatStateFile := "-" } extBase ["t"]).1
        = stdoutText (PrintOutput { rBase with SaveChatStateFile := "-" } extBase
            "" "json resp").1 ∧
    (Run { rBase with SaveChatStateFile := "-" } extBase ["t"]).2
        = (PrintOutput { rBase with SaveChatStateFile := "-" } extBase
            "" "json resp").2 :=
  C9_stateless_chat { rBase with SaveChatStateFile := "-" } extBase ["t"]
    _ _ _ _ _ _ _ _ "" "" "resp" "json resp"
    rfl rfl rfl rfl rfl rfl rfl (by decide) rfl rfl rfl (Or.inl rfl) rfl rfl

end ClaimC9

section ClaimC4

instance : IsTotal Tool (fun a b => b.name ≤ a.name) :=
  ⟨fun a b => le_total b.name a.name⟩

instance : IsTrans Tool (fun a b => b.name ≤ a.name) :=
  ⟨fun _ _ _ hab hbc => le_trans hbc hab⟩

/-- A sorting function that satisfies the `sort.Slice` contract but
reverses the relative order of tools with equal names (descending
stable insertion sort, then reversed).  Nothing in the contract rules
this out. -/
def swapSort (l : List Tool) : List Tool :=
  (List.insertionSort (fun a b => b.name ≤ a.name) l).reverse

/-- The reference order of the claim: a stable ascending sort, which
keeps tools with equal names in declaration order. -/
def declOrderSort (l : List Tool) : List Tool :=
  List.insertionSort (fun a b => a.name ≤ b.name) l

theorem swapSort_sortSpec : SortSpec swapSort := by
  intro l
  constructor
  · exact (List.reverse_perm _).trans (List.perm_insertionSort _ l)
  · have hs := List.sorted_insertionSort (fun a b : Tool => b.name ≤ a.name) l
    refine List.pairwise_reverse.mpr ?_
    exact hs.imp (fun hab => not_lt.mpr hab)

/-- C4 (amended): for every sorting function satisfying the
`sort.Slice` contract, the listing prints, in a by-name ascending
order that is some permutation of the collaborator's tool list, each
tool rendered with its instructions blanked and an empty name replaced
by the program name.  (The relative order of equal names is not part
of the contract.) -/
theorem C4_tool_listing (sortf : List Tool → List Tool) (h : SortSpec sortf)
    (ext : Ext) (prg : Program) :
    ∃ tools' : List Tool, tools'.Perm (ext.listToolsRes prg) ∧
      tools'.Pairwise (fun a b => ¬ b.name < a.name) ∧
      listTools sortf ext prg
        = ([.listToolsEff prg, .stdoutWrite (String.intercalate "\n---\n"
            (tools'.map (fun t => ext.toolRender
              { name := if t.name = "" then prg.name else t.name,
                instructions := "",
                meta := t.meta })) ++ "\n")], .ok ()) := by
  refine ⟨sortf (ext.listToolsRes prg), (h _).1, (h _).2, ?_⟩
  have hfun : ∀ tool : Tool,
      ext.toolRender
          { (if tool.name = "" then { tool with name := prg.name } else tool) with
            instructions := "" }
        = ext.toolRender
          { name := if tool.name = "" then prg.name else tool.name,
            instructions := "", meta := tool.meta } := by
    intro tool
    by_cases ht : tool.name = "" <;> simp [ht]
  simp [listTools, hfun]

/-- Witness for `C4_tool_listing` at a conforming sort and a concrete
collaborator tool list. -/
def extC4 : Ext := { extBase with
  listToolsRes := fun _ =>
    [{ name := "a", instructions := "i1", meta := "1" },
     { name := "a", instructions := "i2", meta := "2" }] }

theorem C4_tool_listing_witness :
    ∃ tools' : List Tool, tools'.Perm (extC4.listToolsRes emptyProgram) ∧
      tools'.Pairwise (fun a b => ¬ b.name < a.name) ∧
      listTools swapSort extC4 emptyProgram
        = ([.listToolsEff emptyProgram, .stdoutWrite (String.intercalate "\n---\n"
            (tools'.map (fun t => extC4.toolRender
              { name := if t.name = "" then emptyProgram.name else t.name,
                instructions := "",
                meta := t.meta })) ++ "\n")], .ok ()) :=
  C4_tool_listing swapSort swapSort_sortSpec extC4 emptyProgram

/-- C4, counterexample to the claim as stated: "ties broken by
declaration order" is not guaranteed — `sort.Slice` promises only a
sort by the less function (it is documented as unstable), and a
conforming sort exists under which two equally-named tools are listed
in the opposite of declaration order. -/
theorem C4_tie_order_not_guaranteed :
    ¬ (∀ sortf : List Tool → List Tool, SortSpec sortf →
        ∀ (ext : Ext) (prg : Program),
          listTools sortf ext prg = listTools declOrderSort ext prg) := by
  intro hclaim
  have h := hclaim swapSort swapSort_sortSpec extC4 emptyProgram
  have hswap : swapSort (extC4.listToolsRes emptyProgram)
      = [{ name := "a", instructions := "i2", meta := "2" },
         { name := "a", instructions := "i1", meta := "1" }] := by
    simp [swapSort, extC4, extBase, List.insertionSort, List.orderedInsert]
  have hdecl : declOrderSort (extC4.listToolsRes emptyProgram)
      = [{ name := "a", instructions := "i1", meta := "1" },
         { name := "a", instructions := "i2", meta := "2" }] := by
    simp [declOrderSort, extC4, extBase, List.insertionSort, List.orderedInsert]
  simp only [listTools, hswap, hdecl] at h
  exact absurd h (by decide)

end ClaimC4

end GPTScriptCLI
